import Mathlib

/-!
# Sync-function examples: a shallow embedding

Embedding of the two example sync functions
`example_sync_functions/1.basic-security.js` (variant A) and
`example_sync_functions/3.sync_function_run.js` (variant B), together with
the `fieldCheck` helper both files carry.

JavaScript values are modelled as a datatype; the engine's Number type is a
parameter (the sync functions only observe a number through `typeof`,
truthiness, comparison with `1` and its string rendering, and a string as a
number only through comparison with `1`).  A run of a sync
function produces a result (normal completion or a thrown value) and the
trace of the calls made to `requireRole`, `fieldCheck` and `channel`.
-/

set_option linter.unusedVariables false

namespace SyncFn

/-! ## JavaScript values -/

/-- What the sync functions observe of the engine's Number type `ν`. -/
structure NumOps (ν : Type) where
  /-- Rendering of a number as a string, `Number::toString`. -/
  toStr : ν → String
  /-- Whether a string, coerced to a number by `StringToNumber`, equals `1`. -/
  strIsOne : String → Bool
  /-- Whether the number equals `1`. -/
  isOne : ν → Bool
  /-- Truthiness, `ToBoolean`: false for zero and NaN. -/
  toBool : ν → Bool

/-- JavaScript values that a document can carry (JSON data), plus
`undefined` for what is absent. -/
inductive JSVal (ν : Type) where
  | undefined
  | null
  | bool (b : Bool)
  | num (n : ν)
  | str (s : String)
  | arr (xs : List (JSVal ν))
  | obj (fields : List (String × JSVal ν))

/-- A document: the list of its own properties. -/
abbrev Doc (ν : Type) := List (String × JSVal ν)

/-- Property read `doc.key`: the value of the own property, `undefined` when
the document has none of that name. -/
def getProp {ν : Type} (doc : Doc ν) (key : String) : JSVal ν :=
  match doc.find? (fun kv => kv.1 == key) with
  | some kv => kv.2
  | none => .undefined

/-- The `typeof` operator. -/
def typeofJS {ν : Type} : JSVal ν → String
  | .undefined => "undefined"
  | .null => "object"
  | .bool _ => "boolean"
  | .num _ => "number"
  | .str _ => "string"
  | .arr _ => "object"
  | .obj _ => "object"

/-- Truthiness of a value, `ToBoolean`. -/
def toBoolean {ν : Type} (ops : NumOps ν) : JSVal ν → Bool
  | .undefined => false
  | .null => false
  | .bool b => b
  | .num n => ops.toBool n
  | .str s => s != ""
  | .arr _ => true
  | .obj _ => true

/-- Strict equality with the literal true: `v === true`. -/
def strictEqTrue {ν : Type} : JSVal ν → Bool
  | .bool b => b
  | _ => false

/-- Strict equality with the literal null: `v === null`. -/
def strictEqNull {ν : Type} : JSVal ν → Bool
  | .null => true
  | _ => false

/-- Strict equality with a string literal: `v === "lit"`. -/
def strictEqStr {ν : Type} (v : JSVal ν) (lit : String) : Bool :=
  match v with
  | .str s => s == lit
  | _ => false

/-- Whether an object has an own property of that name. -/
def hasOwn {ν : Type} (fields : List (String × JSVal ν)) (key : String) : Bool :=
  fields.any (fun kv => kv.1 == key)

mutual
/-- String coercion of a value, `ToString` (after `ToPrimitive` for arrays and
objects); `none` is a thrown TypeError.  A plain object renders as
`[object Object]` through the inherited `toString`; an own property named
`toString` holds data, is not callable, and leaves no way to a primitive.
An array renders as `Array.prototype.join` does with the default separator. -/
def toStringJS {ν : Type} (ops : NumOps ν) : JSVal ν → Option String
  | .undefined => some "undefined"
  | .null => some "null"
  | .bool true => some "true"
  | .bool false => some "false"
  | .num n => some (ops.toStr n)
  | .str s => some s
  | .arr xs => joinJS ops xs
  | .obj fields => if hasOwn fields "toString" then none else some "[object Object]"
/-- Rendering of an array element inside `join`: `undefined` and `null`
render as the empty string. -/
def elemStringJS {ν : Type} (ops : NumOps ν) : JSVal ν → Option String
  | .undefined => some ""
  | .null => some ""
  | .bool true => some "true"
  | .bool false => some "false"
  | .num n => some (ops.toStr n)
  | .str s => some s
  | .arr xs => joinJS ops xs
  | .obj fields => if hasOwn fields "toString" then none else some "[object Object]"
/-- Comma-joined rendering of the elements of an array. -/
def joinJS {ν : Type} (ops : NumOps ν) : List (JSVal ν) → Option String
  | [] => some ""
  | v :: rest =>
    match elemStringJS ops v, joinTail ops rest with
    | some s, some t => some (s ++ t)
    | _, _ => none
/-- Rendering of the elements after the first: each preceded by a comma. -/
def joinTail {ν : Type} (ops : NumOps ν) : List (JSVal ν) → Option String
  | [] => some ""
  | v :: rest =>
    match elemStringJS ops v, joinTail ops rest with
    | some s, some t => some ("," ++ s ++ t)
    | _, _ => none
end

/-- Loose equality with the literal true: `v == true`.  The boolean operand
is coerced to the number `1`; a string operand is coerced to a number, an
array or object operand to a primitive (its string rendering) and then to a
number.  The value `none` is a thrown TypeError. -/
def looseEqTrue {ν : Type} (ops : NumOps ν) : JSVal ν → Option Bool
  | .undefined => some false
  | .null => some false
  | .bool b => some b
  | .num n => some (ops.isOne n)
  | .str s => some (ops.strIsOne s)
  | .arr xs =>
    match toStringJS ops (.arr xs) with
    | some s => some (ops.strIsOne s)
    | none => none
  | .obj fields =>
    match toStringJS ops (.obj fields) with
    | some s => some (ops.strIsOne s)
    | none => none

/-- Segments of a character sequence cut at every occurrence of `sep`, as
`String.prototype.split` gives them for a one-character separator. -/
def splitChars (sep : Char) : List Char → List (List Char)
  | [] => [[]]
  | c :: cs =>
    if c = sep then [] :: splitChars sep cs
    else
      match splitChars sep cs with
      | [] => [[c]]
      | seg :: segs => (c :: seg) :: segs

/-- Element read `a[i]` on an array of strings: `undefined` past the end. -/
def index {ν : Type} (a : List String) (i : Nat) : JSVal ν :=
  match a.get? i with
  | some s => .str s
  | none => .undefined

/-! ## Runs: thrown values and the trace of host calls -/

/-- What a sync function can throw. -/
inductive Thrown where
  /-- The structured rejection `throw({forbidden: reason})`. -/
  | forbidden (reason : String)
  /-- The rejection raised by the host inside `requireRole`. -/
  | missingRole
  /-- A runtime TypeError raised by the engine. -/
  | typeError
  deriving DecidableEq, Repr

/-- A call made during a run, with its argument. -/
inductive Call (ν : Type) where
  | requireRole (roles : List String)
  | fieldCheck (arg : JSVal ν)
  | channel (arg : JSVal ν)

/-- A computation of the sync function: from the trace of calls so far to a
result (a value or a thrown value) and the extended trace. -/
def Exec (ν : Type) (α : Type) : Type := List (Call ν) → Except Thrown α × List (Call ν)

/-- Normal completion with a value. -/
def Exec.ret {ν α : Type} (a : α) : Exec ν α := fun t => (.ok a, t)

/-- The `throw` statement. -/
def Exec.throw {ν α : Type} (e : Thrown) : Exec ν α := fun t => (.error e, t)

/-- Sequencing: a thrown value ends the computation. -/
def Exec.seq {ν α β : Type} (m : Exec ν α) (f : α → Exec ν β) : Exec ν β := fun t =>
  match m t with
  | (.ok a, t1) => f a t1
  | (.error e, t1) => (.error e, t1)

/-- Recording of a call in the trace. -/
def Exec.log {ν : Type} (c : Call ν) : Exec ν Unit := fun t => (.ok (), t ++ [c])

/-- The `try { body } catch (error) { handler }` statement. -/
def Exec.tryCatch {ν α : Type} (body : Exec ν α) (handler : Thrown → Exec ν α) : Exec ν α := fun t =>
  match body t with
  | (.ok a, t1) => (.ok a, t1)
  | (.error e, t1) => handler e t1

instance {ν : Type} : Monad (Exec ν) where
  pure := Exec.ret
  bind := Exec.seq

/-- Method call `v.split(sep)` with a one-character separator: the array of
segments when `v` is a string; a TypeError otherwise (`undefined` and `null`
have no properties, and no other document value has a callable `split`). -/
def split {ν : Type} (v : JSVal ν) (sep : Char) : Exec ν (List String) :=
  match v with
  | .str s => Exec.ret ((splitChars sep s.data).map String.mk)
  | _ => Exec.throw .typeError

/-- String concatenation `lit + v`, with `v` coerced to a string. -/
def concatStr {ν : Type} (ops : NumOps ν) (lit : String) (v : JSVal ν) : Exec ν String :=
  match toStringJS ops v with
  | some s => Exec.ret (lit ++ s)
  | none => Exec.throw .typeError

/-! ## Host capabilities -/

/-- Whether the caller holds at least one of the given roles. -/
def holdsAny (caller : List String) (roles : List String) : Bool :=
  roles.any (fun r => caller.contains r)

/-- Modelled from the spec: the host capability `requireRole(roles)`, which is
not part of the sources: it rejects the current call immediately when the
caller holds none of the given roles and is a no-op otherwise.  The caller is
given by the list `caller` of the roles it holds. -/
def requireRole {ν : Type} (caller : List String) (roles : List String) : Exec ν Unit := do
  Exec.log (.requireRole roles)
  if holdsAny caller roles then Exec.ret () else Exec.throw .missingRole

/-- Modelled from the spec: the host capability `channel(names)`, which is not
part of the sources: it declares that the document belongs to the given
channel(s) and returns. -/
def channel {ν : Type} (names : JSVal ν) : Exec ν Unit :=
  Exec.log (.channel names)

/-! ## The source functions -/

/-- The helper `fieldCheck(elementName)` of both files. -/
def fieldCheck {ν : Type} (ops : NumOps ν) (elementName : JSVal ν) : Exec ν Bool := do
  Exec.log (.fieldCheck elementName)
  if typeofJS elementName != "undefined" && !strictEqNull elementName
      && !strictEqStr elementName "" && typeofJS elementName != "number" then
    Exec.ret true
  else
    let msg ← concatStr ops "error: field '" elementName
    Exec.throw (.forbidden (msg ++ "' has errors"))

/-- The sync function of `1.basic-security.js` (variant A). -/
def syncA {ν : Type} (ops : NumOps ν) (caller : List String) (doc : Doc ν) (oldDoc : JSVal ν) :
    Exec ν Unit := do
  let a ← split (getProp doc "_id") ':'
  if toBoolean ops (getProp doc "deleted") && strictEqTrue (getProp doc "deleted") then
    requireRole caller ["editor", "admin"]
  else
    if strictEqStr (index a 0 : JSVal ν) "order" then
      requireRole caller ["editor", "admin", "user"]
      let _ ← fieldCheck ops (getProp doc "channels")
      channel (getProp doc "channels")
    else if strictEqStr (index a 0 : JSVal ν) "job" then
      requireRole caller ["editor", "admin"]
      let _ ← fieldCheck ops (getProp doc "channels")
      channel (getProp doc "channels")
    else
      Exec.throw (.forbidden "error: no docType")

/-- The test `doc.deleted && doc.deleted == true` of variant B: the right
operand is evaluated only when the left one is truthy. -/
def deletedTestB {ν : Type} (ops : NumOps ν) (d : JSVal ν) : Exec ν Bool :=
  if toBoolean ops d then
    match looseEqTrue ops d with
    | some b => Exec.ret b
    | none => Exec.throw .typeError
  else Exec.ret false

/-- The sync function of `3.sync_function_run.js` (variant B). -/
def syncB {ν : Type} (ops : NumOps ν) (caller : List String) (doc : Doc ν) (oldDoc : JSVal ν) :
    Exec ν Unit := do
  let a ← Exec.tryCatch (split (getProp doc "_id") '-')
    (fun _ => Exec.throw (.forbidden "error: invalid document ID format"))
  if (← deletedTestB ops (getProp doc "deleted")) then
    requireRole caller ["editor", "admin"]
  else
    if strictEqStr (index a 0 : JSVal ν) "order" then
      requireRole caller ["editor", "admin", "user"]
      let _ ← fieldCheck ops (getProp doc "channels")
      channel (getProp doc "channels")
    else if strictEqStr (index a 0 : JSVal ν) "job" then
      requireRole caller ["manager", "editor", "admin"]
      let _ ← fieldCheck ops (getProp doc "channels")
      channel (getProp doc "channels")
    else
      Exec.throw (.forbidden "error: invalid docType")

/-! ## Observing a run -/

/-- The result of a call of a sync function, started on the empty trace:
normal completion (the write is permitted) or the thrown value. -/
def result {ν : Type} (m : Exec ν Unit) : Except Thrown Unit := (m []).1

/-- The calls made to `requireRole`, `fieldCheck` and `channel` during a call
of a sync function, in order. -/
def calls {ν : Type} (m : Exec ν Unit) : List (Call ν) := (m []).2

/-- Whether the call is a call of `requireRole`. -/
def Call.isRequireRole {ν : Type} : Call ν → Bool
  | .requireRole _ => true
  | _ => false

/-- Whether the call is a call of `fieldCheck`. -/
def Call.isFieldCheck {ν : Type} : Call ν → Bool
  | .fieldCheck _ => true
  | _ => false

/-- Whether the call is a call of `channel`. -/
def Call.isChannel {ν : Type} : Call ν → Bool
  | .channel _ => true
  | _ => false

/-! ## Notions of the specification -/

/-- The first delimiter-separated segment of an identifier: what precedes the
first occurrence of the delimiter, the whole identifier when there is none. -/
def firstSegment (sep : Char) (id : String) : String :=
  String.mk (id.data.takeWhile (fun c => c != sep))

/-- A `channels` value that is defined, not null, not the empty string and
not of numeric type. -/
def ValidChannels {ν : Type} (v : JSVal ν) : Prop :=
  v ≠ .undefined ∧ v ≠ .null ∧ v ≠ .str "" ∧ ∀ n, v ≠ .num n

/-- The test of `fieldCheck`, as a boolean. -/
def fieldOk {ν : Type} (v : JSVal ν) : Bool :=
  typeofJS v != "undefined" && !strictEqNull v && !strictEqStr v "" && typeofJS v != "number"

/-- The run of a type branch, spelled out: `requireRole(roles)`, then
`fieldCheck(v)`, then `channel(v)`, stopping at the first that throws. -/
def branchRun {ν : Type} (ops : NumOps ν) (caller roles : List String) (v : JSVal ν) :
    Except Thrown Unit × List (Call ν) :=
  if holdsAny caller roles then
    if fieldOk v then (.ok (), [.requireRole roles, .fieldCheck v, .channel v])
    else
      (match toStringJS ops v with
        | some r => .error (.forbidden ("error: field '" ++ r ++ "' has errors"))
        | none => .error .typeError,
       [.requireRole roles, .fieldCheck v])
  else (.error .missingRole, [.requireRole roles])

/-- The run of the branching on the document type, spelled out, for the
roles `jobRoles` of the job branch and the reason `msg` of the last branch. -/
def typeRun {ν : Type} (ops : NumOps ν) (caller jobRoles : List String) (msg : String)
    (docType : String) (v : JSVal ν) : Except Thrown Unit × List (Call ν) :=
  if docType = "order" then branchRun ops caller ["editor", "admin", "user"] v
  else if docType = "job" then branchRun ops caller jobRoles v
  else (.error (.forbidden msg), [])

/-- The run of the deletion branch, spelled out: `requireRole` alone. -/
def deletionRun {ν : Type} (caller : List String) : Except Thrown Unit × List (Call ν) :=
  (if holdsAny caller ["editor", "admin"] then .ok () else .error .missingRole,
   [.requireRole ["editor", "admin"]])

/-- A run declares a channel at most once, and only when it completes
normally. -/
def ChannelOnlyOnSuccess {ν : Type} (r : Except Thrown Unit × List (Call ν)) : Prop :=
  (r.2.filter Call.isChannel).length ≤ 1 ∧ (r.1 = .ok () ∨ r.2.any Call.isChannel = false)

/-- The two example files. -/
inductive Variant where
  /-- The file `1.basic-security.js`. -/
  | A
  /-- The file `3.sync_function_run.js`. -/
  | B
  deriving DecidableEq, Repr

/-- The sync function of a variant. -/
def Variant.sync {ν : Type} : Variant → NumOps ν → List String → Doc ν → JSVal ν → Exec ν Unit
  | .A => syncA
  | .B => syncB

/-- The delimiter on which a variant splits the identifier. -/
def Variant.sep : Variant → Char
  | .A => ':'
  | .B => '-'

/-- The roles a variant requires in its job branch. -/
def Variant.jobRoles : Variant → List String
  | .A => ["editor", "admin"]
  | .B => ["manager", "editor", "admin"]

/-- The roles a variant requires in the branch of a document type, order or
job. -/
def Variant.requiredRoles (v : Variant) (docType : String) : List String :=
  if docType = "order" then ["editor", "admin", "user"] else v.jobRoles

/-- The reason a variant gives when the document type is not recognised. -/
def Variant.docTypeReason : Variant → String
  | .A => "error: no docType"
  | .B => "error: invalid docType"

/-- The deleted test of the variant, as the code evaluates it, is false on
the document, so that the call goes on to the branching on the document
type.  For variant A (`===`): the `deleted` field is anything but the boolean
true.  For variant B (`==`): the `deleted` field is absent or falsy, or the
comparison `deleted == true` evaluates to false.  This is the test of each
file, not the notion of the specification, which is `NotDeleted`. -/
def Variant.DeletedTestFalse {ν : Type} (v : Variant) (ops : NumOps ν) (doc : Doc ν) : Prop :=
  match v with
  | .A => getProp doc "deleted" ≠ .bool true
  | .B => toBoolean ops (getProp doc "deleted") = false ∨
      looseEqTrue ops (getProp doc "deleted") = some false

/-- A non-deleted document, in the sense of the specification: its `deleted`
field is not the boolean true (absent included). -/
def NotDeleted {ν : Type} (doc : Doc ν) : Prop :=
  getProp doc "deleted" ≠ .bool true

/-- A document without deletion mark on which the two equality operators
cannot differ: its `deleted` field is not the boolean true and, in variant B,
it is moreover absent or falsy (false, null, zero, NaN or the empty string),
so that the comparison with true of that variant is not evaluated. -/
def Variant.DeletedUnset {ν : Type} (v : Variant) (ops : NumOps ν) (doc : Doc ν) : Prop :=
  match v with
  | .A => getProp doc "deleted" ≠ .bool true
  | .B => toBoolean ops (getProp doc "deleted") = false

/-- The channel values declared during a run, in order: the arguments of the
calls to `channel` in its trace. -/
def declaredChannels {ν : Type} : List (Call ν) → List (JSVal ν)
  | [] => []
  | .channel w :: t => w :: declaredChannels t
  | .requireRole _ :: t => declaredChannels t
  | .fieldCheck _ :: t => declaredChannels t

/-! ## A reference engine on integers

A concrete engine on which runs can be evaluated.  Its numbers are NaN and the
numbers denoted by integer literals; the rendering of a number and the
comparison of a string with `1` follow `Number::toString` and
`StringToNumber`, with correct rounding to the nearest double. -/

/-- Numbers of the reference engine: NaN, and for an integer `i` the double
nearest to `i` (an infinity when `i` is out of range). -/
inductive IntNum where
  | nan
  | int (i : Int)
  deriving DecidableEq, Repr

/-- Number of digits of `m` in the given base, zero for zero; the first
argument bounds the number of steps. -/
def digitCountAux (base : Nat) : Nat → Nat → Nat
  | 0, _ => 0
  | fuel + 1, m => if m = 0 then 0 else digitCountAux base fuel (m / base) + 1

/-- Number of binary digits of a natural number. -/
def bitLength (n : Nat) : Nat := digitCountAux 2 n n

/-- Number of decimal digits of a natural number. -/
def decimalLength (n : Nat) : Nat := digitCountAux 10 n n

/-- The double nearest to a natural number, ties to the even significand of
53 bits, as its exact integer value; `none` when it is an infinity. -/
def roundToDouble (n : Nat) : Option Nat :=
  if bitLength n ≤ 53 then some n
  else
    let sh := bitLength n - 53
    let q := n / 2 ^ sh
    let r := n % 2 ^ sh
    let half := 2 ^ (sh - 1)
    let q1 := if half < r ∨ (r = half ∧ q % 2 = 1) then q + 1 else q
    if q1 * 2 ^ sh < 2 ^ 1024 then some (q1 * 2 ^ sh) else none

/-- A decimal with `k` significant digits that denotes the double `x` of `d`
decimal digits, if there is one: the closer of the two neighbours of `x` with
`k` significant digits, the one with even last digit on a tie. -/
def shortestWith (x d k : Nat) : Option Nat :=
  let p := 10 ^ (d - k)
  let lo := x / p * p
  let hi := lo + p
  if roundToDouble lo = some x then
    if roundToDouble hi = some x then
      if x - lo < hi - x then some lo
      else if hi - x < x - lo then some hi
      else if (x / p) % 2 = 0 then some lo else some hi
    else some lo
  else if roundToDouble hi = some x then some hi
  else none

/-- Search of the shortest decimal that denotes the double `x`, from `k`
significant digits upwards. -/
def shortestFrom (x d : Nat) : Nat → Nat → Nat
  | 0, _ => x
  | fuel + 1, k =>
    match shortestWith x d k with
    | some c => c
    | none => if k < d then shortestFrom x d fuel (k + 1) else x

/-- The decimal with the fewest significant digits that denotes the double
`x`; seventeen digits always suffice. -/
def shortestDecimal (x : Nat) : Nat := shortestFrom x (decimalLength x) 17 1

/-- Removal of the trailing decimal zeros of a natural number. -/
def stripZerosAux : Nat → Nat → Nat
  | 0, c => c
  | fuel + 1, c => if c ≠ 0 ∧ c % 10 = 0 then stripZerosAux fuel (c / 10) else c

/-- Rendering of a positive integer of at most 21 digits as its digits, and
of a longer one in exponent form: first significant digit, the other
significant digits after a point, and the decimal exponent. -/
def renderNat (c : Nat) : String :=
  if decimalLength c ≤ 21 then toString c
  else
    match (toString (stripZerosAux c c)).data with
    | [] => "0"
    | [d] => String.mk [d] ++ "e+" ++ toString (decimalLength c - 1)
    | d :: ds => String.mk (d :: '.' :: ds) ++ "e+" ++ toString (decimalLength c - 1)

/-- Rendering of the double nearest to a natural number. -/
def renderMagnitude (n : Nat) : String :=
  if n = 0 then "0"
  else
    match roundToDouble n with
    | some x => renderNat (shortestDecimal x)
    | none => "Infinity"

/-- Rendering of a number of the reference engine, `Number::toString`. -/
def IntNum.render : IntNum → String
  | .nan => "NaN"
  | .int i => if i < 0 then "-" ++ renderMagnitude i.natAbs else renderMagnitude i.natAbs

/-- White space and line terminators, which `StringToNumber` strips at both
ends. -/
def isJSWhiteSpace (c : Char) : Bool :=
  c.toNat = 0x9 || c.toNat = 0xA || c.toNat = 0xB || c.toNat = 0xC || c.toNat = 0xD ||
  c.toNat = 0x20 || c.toNat = 0xA0 || c.toNat = 0x1680 ||
  (0x2000 ≤ c.toNat && c.toNat ≤ 0x200A) || c.toNat = 0x2028 || c.toNat = 0x2029 ||
  c.toNat = 0x202F || c.toNat = 0x205F || c.toNat = 0x3000 || c.toNat = 0xFEFF

/-- Removal of white space at both ends. -/
def trimJS (cs : List Char) : List Char :=
  ((cs.dropWhile isJSWhiteSpace).reverse.dropWhile isJSWhiteSpace).reverse

/-- Value of a character as a digit of the given base, if it is one. -/
def digitOf (base : Nat) (c : Char) : Option Nat :=
  if '0' ≤ c ∧ c ≤ '9' then (if c.toNat - 48 < base then some (c.toNat - 48) else none)
  else if 'a' ≤ c ∧ c ≤ 'f' then (if c.toNat - 87 < base then some (c.toNat - 87) else none)
  else if 'A' ≤ c ∧ c ≤ 'F' then (if c.toNat - 55 < base then some (c.toNat - 55) else none)
  else none

/-- Value of a sequence of digits of the given base read after the value
`acc`; `none` when a character is not such a digit. -/
def readDigits (base : Nat) (acc : Nat) : List Char → Option Nat
  | [] => some acc
  | c :: cs =>
    match digitOf base c with
    | some d => readDigits base (base * acc + d) cs
    | none => none

/-- Value of a non-empty sequence of digits of the given base. -/
def readNonEmpty (base : Nat) (cs : List Char) : Option Nat :=
  match cs with
  | [] => none
  | _ => readDigits base 0 cs

/-- Value of an optional exponent part: `e` or `E`, an optional sign and
decimal digits; `none` when what follows the digits of a literal is anything
else. -/
def readExponent : List Char → Option Int
  | [] => some 0
  | c :: cs =>
    if c = 'e' ∨ c = 'E' then
      match cs with
      | '+' :: ds => (readNonEmpty 10 ds).map (fun n => (n : Int))
      | '-' :: ds => (readNonEmpty 10 ds).map (fun n => - (n : Int))
      | ds => (readNonEmpty 10 ds).map (fun n => (n : Int))
    else none

/-- Whether `n` times ten to the power `k` rounds to the double `1`: the
doubles next to `1` are `1 - 2^-53` and `1 + 2^-52`, and both ties go to `1`. -/
def scaledIsOne (n : Nat) (k : Int) : Bool :=
  if 0 ≤ k then n * 10 ^ k.toNat = 1
  else
    (2 ^ 54 - 1) * 10 ^ (-k).toNat ≤ n * 2 ^ 54 ∧ n * 2 ^ 53 ≤ (2 ^ 53 + 1) * 10 ^ (-k).toNat

/-- Whether an unsigned decimal literal (digits, an optional point and
fraction, an optional exponent) denotes a number that rounds to `1`; false
for what is not such a literal. -/
def decimalIsOne (cs : List Char) : Bool :=
  match cs.span Char.isDigit with
  | (ip, '.' :: r2) =>
    match r2.span Char.isDigit with
    | (fp, r3) =>
      if ip.isEmpty ∧ fp.isEmpty then false
      else
        match readDigits 10 0 (ip ++ fp), readExponent r3 with
        | some n, some e => scaledIsOne n (e - fp.length)
        | _, _ => false
  | (ip, r1) =>
    if ip.isEmpty then false
    else
      match readDigits 10 0 ip, readExponent r1 with
      | some n, some e => scaledIsOne n e
      | _, _ => false

/-- Whether a string, coerced to a number by `StringToNumber`, equals `1`:
after the removal of white space at both ends, a decimal literal with an
optional plus sign, or an unsigned hexadecimal, octal or binary integer
literal, that denotes a number rounding to `1`. -/
def stringIsOne (s : String) : Bool :=
  match trimJS s.data with
  | [] => false
  | '-' :: _ => false
  | '+' :: cs => decimalIsOne cs
  | '0' :: 'x' :: ds => readNonEmpty 16 ds = some 1
  | '0' :: 'X' :: ds => readNonEmpty 16 ds = some 1
  | '0' :: 'o' :: ds => readNonEmpty 8 ds = some 1
  | '0' :: 'O' :: ds => readNonEmpty 8 ds = some 1
  | '0' :: 'b' :: ds => readNonEmpty 2 ds = some 1
  | '0' :: 'B' :: ds => readNonEmpty 2 ds = some 1
  | cs => decimalIsOne cs

/-- The reference engine. -/
def refOps : NumOps IntNum where
  toStr := IntNum.render
  strIsOne := stringIsOne
  isOne := fun n => decide (n = .int 1)
  toBool := fun n => match n with
    | .nan => false
    | .int i => decide (i ≠ 0)

/-! ## Auxiliary facts -/

theorem splitChars_head (sep : Char) (cs : List Char) :
    (splitChars sep cs).head? = some (cs.takeWhile (fun c => c != sep)) := by
  induction cs with
  | nil => rfl
  | cons c cs ih =>
    by_cases h : c = sep
    · simp [splitChars, h]
    · simp only [splitChars, h, if_false]
      cases hs : splitChars sep cs with
      | nil => simp [hs] at ih
      | cons seg segs =>
        simp [hs] at ih
        have hc : (c != sep) = true := by simp [h]
        rw [List.takeWhile_cons, hc, ← ih]
        simp

theorem index_split_zero {ν : Type} (sep : Char) (s : String) :
    (index ((splitChars sep s.data).map String.mk) 0 : JSVal ν) = .str (firstSegment sep s) := by
  have h := splitChars_head sep s.data
  cases hs : splitChars sep s.data with
  | nil => simp [hs] at h
  | cons seg segs =>
    simp [hs] at h
    simp [index, firstSegment, h]

theorem requireRole_run {ν : Type} (caller roles : List String) (t : List (Call ν)) :
    requireRole caller roles t =
      (if holdsAny caller roles then .ok () else .error .missingRole, t ++ [.requireRole roles]) := by
  simp only [requireRole, bind, Exec.seq, Exec.log]
  split <;> rfl

theorem fieldOk_iff {ν : Type} (v : JSVal ν) : fieldOk v = true ↔ ValidChannels v := by
  cases v <;> simp [fieldOk, ValidChannels, typeofJS, strictEqNull, strictEqStr]

theorem fieldCheck_run {ν : Type} (ops : NumOps ν) (v : JSVal ν) (t : List (Call ν)) :
    fieldCheck ops v t =
      (if fieldOk v then .ok true
        else match toStringJS ops v with
          | some r => .error (.forbidden ("error: field '" ++ r ++ "' has errors"))
          | none => .error .typeError,
        t ++ [.fieldCheck v]) := by
  simp only [fieldCheck, fieldOk, bind, Exec.seq, Exec.log, concatStr]
  split
  · rfl
  · cases h : toStringJS ops v <;> simp [Exec.ret, Exec.throw, Exec.seq]

theorem strictEqTrue_iff {ν : Type} (d : JSVal ν) : strictEqTrue d = true ↔ d = .bool true := by
  cases d <;> simp [strictEqTrue]

theorem deletedA_eq {ν : Type} (ops : NumOps ν) (d : JSVal ν) :
    (toBoolean ops d && strictEqTrue d) = strictEqTrue d := by
  cases d <;> simp [toBoolean, strictEqTrue]

theorem branch_run {ν : Type} (ops : NumOps ν) (caller roles : List String) (v : JSVal ν) :
    (requireRole caller roles).seq
        (fun _ => (fieldCheck ops v).seq fun _ => channel v) [] =
      branchRun ops caller roles v := by
  simp only [Exec.seq, requireRole_run, fieldCheck_run, branchRun, channel, Exec.log]
  by_cases h1 : holdsAny caller roles = true
  · by_cases h2 : fieldOk v = true
    · simp [h1, h2]
    · cases h3 : toStringJS ops v <;> simp [h1, h2]
  · simp [h1]

theorem syncA_run {ν : Type} (ops : NumOps ν) (caller : List String) (doc : Doc ν)
    (oldDoc : JSVal ν) (s : String) (hid : getProp doc "_id" = .str s) :
    syncA ops caller doc oldDoc [] =
      if strictEqTrue (getProp doc "deleted") then deletionRun caller
      else typeRun ops caller ["editor", "admin"] "error: no docType"
        (firstSegment ':' s) (getProp doc "channels") := by
  simp only [syncA, hid, split, bind, Exec.seq, Exec.ret, index_split_zero, strictEqStr,
    deletedA_eq, typeRun]
  by_cases hd : strictEqTrue (getProp doc "deleted") = true
  · simp [hd, requireRole_run, deletionRun]
  · simp only [hd, if_false]
    by_cases h1 : firstSegment ':' s = "order"
    · simpa [h1, Exec.seq] using branch_run ops caller ["editor", "admin", "user"] (getProp doc "channels")
    · by_cases h2 : firstSegment ':' s = "job"
      · simpa [h1, h2, Exec.seq] using branch_run ops caller ["editor", "admin"] (getProp doc "channels")
      · simp [h1, h2, Exec.throw]

theorem syncB_type_run {ν : Type} (ops : NumOps ν) (caller : List String) (s : String)
    (v : JSVal ν) :
    (if strictEqStr (index ((splitChars '-' s.data).map String.mk) 0 : JSVal ν) "order" then
        (requireRole caller ["editor", "admin", "user"]).seq
          (fun _ => (fieldCheck ops v).seq fun _ => channel v)
      else if strictEqStr (index ((splitChars '-' s.data).map String.mk) 0 : JSVal ν) "job" then
        (requireRole caller ["manager", "editor", "admin"]).seq
          (fun _ => (fieldCheck ops v).seq fun _ => channel v)
      else Exec.throw (.forbidden "error: invalid docType") : Exec ν Unit) [] =
      typeRun ops caller ["manager", "editor", "admin"] "error: invalid docType"
        (firstSegment '-' s) v := by
  simp only [index_split_zero, strictEqStr, typeRun]
  by_cases h1 : firstSegment '-' s = "order"
  · simpa [h1] using branch_run ops caller ["editor", "admin", "user"] v
  · by_cases h2 : firstSegment '-' s = "job"
    · simpa [h1, h2] using branch_run ops caller ["manager", "editor", "admin"] v
    · simp [h1, h2, Exec.throw]

theorem syncB_run {ν : Type} (ops : NumOps ν) (caller : List String) (doc : Doc ν)
    (oldDoc : JSVal ν) (s : String) (hid : getProp doc "_id" = .str s) :
    syncB ops caller doc oldDoc [] =
      if toBoolean ops (getProp doc "deleted") then
        match looseEqTrue ops (getProp doc "deleted") with
        | none => (.error .typeError, [])
        | some true => deletionRun caller
        | some false => typeRun ops caller ["manager", "editor", "admin"] "error: invalid docType"
            (firstSegment '-' s) (getProp doc "channels")
      else typeRun ops caller ["manager", "editor", "admin"] "error: invalid docType"
        (firstSegment '-' s) (getProp doc "channels") := by
  have ht := syncB_type_run ops caller s (getProp doc "channels")
  simp only [syncB, hid, split, bind, Exec.seq, Exec.ret, Exec.tryCatch, deletedTestB]
  by_cases hb : toBoolean ops (getProp doc "deleted") = true
  · simp only [hb, if_true]
    cases hl : looseEqTrue ops (getProp doc "deleted") with
    | none => simp [Exec.throw]
    | some b =>
      cases b
      · simpa [Exec.ret] using ht
      · simp [Exec.ret, requireRole_run, deletionRun]
  · simp only [hb]
    simpa [Exec.ret] using ht

theorem syncB_run_nonstr {ν : Type} (ops : NumOps ν) (caller : List String) (doc : Doc ν)
    (oldDoc : JSVal ν) (hid : ∀ s, getProp doc "_id" ≠ .str s) :
    syncB ops caller doc oldDoc [] =
      (.error (.forbidden "error: invalid document ID format"), []) := by
  simp only [syncB, bind, Exec.seq, Exec.tryCatch]
  cases h : getProp doc "_id" <;> simp_all [split, Exec.throw]

theorem syncA_run_nonstr {ν : Type} (ops : NumOps ν) (caller : List String) (doc : Doc ν)
    (oldDoc : JSVal ν) (hid : ∀ s, getProp doc "_id" ≠ .str s) :
    syncA ops caller doc oldDoc [] = (.error .typeError, []) := by
  simp only [syncA, bind, Exec.seq]
  cases h : getProp doc "_id" <;> simp_all [split, Exec.throw]

theorem sync_run_nondeleted {ν : Type} (v : Variant) (ops : NumOps ν) (caller : List String)
    (doc : Doc ν) (oldDoc : JSVal ν) (s : String) (hid : getProp doc "_id" = .str s)
    (hnd : v.DeletedTestFalse ops doc) :
    v.sync ops caller doc oldDoc [] =
      typeRun ops caller v.jobRoles v.docTypeReason (firstSegment v.sep s)
        (getProp doc "channels") := by
  cases v with
  | A =>
    have hd : strictEqTrue (getProp doc "deleted") = false := by
      cases h : strictEqTrue (getProp doc "deleted") with
      | false => rfl
      | true => exact absurd ((strictEqTrue_iff _).1 h) hnd
    simp [Variant.sync, syncA_run ops caller doc oldDoc s hid, hd, Variant.jobRoles,
      Variant.docTypeReason, Variant.sep]
  | B =>
    rcases hnd with hd | hd
    · simp [Variant.sync, syncB_run ops caller doc oldDoc s hid, hd, Variant.jobRoles,
        Variant.docTypeReason, Variant.sep]
    · simp [Variant.sync, syncB_run ops caller doc oldDoc s hid, hd, Variant.jobRoles,
        Variant.docTypeReason, Variant.sep]

theorem sync_run_deleted {ν : Type} (v : Variant) (ops : NumOps ν) (caller : List String)
    (doc : Doc ν) (oldDoc : JSVal ν) (s : String) (hid : getProp doc "_id" = .str s)
    (hdel : getProp doc "deleted" = .bool true) :
    v.sync ops caller doc oldDoc [] = deletionRun caller := by
  cases v with
  | A => simp [Variant.sync, syncA_run ops caller doc oldDoc s hid, hdel, strictEqTrue]
  | B => simp [Variant.sync, syncB_run ops caller doc oldDoc s hid, hdel, toBoolean, looseEqTrue]

theorem deletedUnset_test_false {ν : Type} (v : Variant) (ops : NumOps ν) (doc : Doc ν)
    (h : v.DeletedUnset ops doc) : v.DeletedTestFalse ops doc := by
  cases v with
  | A => exact h
  | B => exact Or.inl h

theorem deletedUnset_not_deleted {ν : Type} (v : Variant) (ops : NumOps ν) (doc : Doc ν)
    (h : v.DeletedUnset ops doc) : NotDeleted doc := by
  cases v with
  | A => exact h
  | B =>
    intro hd
    have hb : toBoolean ops (getProp doc "deleted") = false := h
    simp [hd, toBoolean] at hb

/-! ## The claims -/

/-- C1: in both variants, for every document whose `_id` is a string and whose
`deleted` field is the boolean true, whatever the document type and the
content of `channels`, the only call made is `requireRole(["editor","admin"])`,
so neither `fieldCheck` nor `channel` is invoked; the call permits when the
caller holds editor or admin and rejects with the role error otherwise. -/
theorem deleted_document_skips_channels {ν : Type} (v : Variant) (ops : NumOps ν)
    (caller : List String) (doc : Doc ν) (oldDoc : JSVal ν) (s : String)
    (hid : getProp doc "_id" = .str s) (hdel : getProp doc "deleted" = .bool true) :
    result (v.sync ops caller doc oldDoc) =
        (if holdsAny caller ["editor", "admin"] then .ok () else .error .missingRole) ∧
      calls (v.sync ops caller doc oldDoc) = [.requireRole ["editor", "admin"]] ∧
      (calls (v.sync ops caller doc oldDoc)).any Call.isFieldCheck = false ∧
      (calls (v.sync ops caller doc oldDoc)).any Call.isChannel = false := by
  simp [result, calls, sync_run_deleted v ops caller doc oldDoc s hid hdel, deletionRun,
    Call.isFieldCheck, Call.isChannel]

/-- Witness of C1: the document `{_id:"order:5", deleted:true}` with caller
role admin in variant A permits, with `requireRole` as the only call. -/
theorem deleted_document_skips_channels_witness :
    getProp ([("_id", .str "order:5"), ("deleted", .bool true)] : Doc IntNum) "_id"
        = .str "order:5" ∧
      getProp ([("_id", .str "order:5"), ("deleted", .bool true)] : Doc IntNum) "deleted"
        = .bool true ∧
      result (Variant.A.sync refOps ["admin"]
        [("_id", .str "order:5"), ("deleted", .bool true)] .undefined) = .ok () ∧
      calls (Variant.A.sync refOps ["admin"]
        [("_id", .str "order:5"), ("deleted", .bool true)] .undefined)
        = [.requireRole ["editor", "admin"]] :=
  ⟨rfl, rfl,
    (deleted_document_skips_channels Variant.A refOps ["admin"]
      [("_id", .str "order:5"), ("deleted", .bool true)] .undefined "order:5" rfl rfl).1,
    (deleted_document_skips_channels Variant.A refOps ["admin"]
      [("_id", .str "order:5"), ("deleted", .bool true)] .undefined "order:5" rfl rfl).2.1⟩

/-- Where the deleted test of the variant is false: for a document whose
document type is order or job and a caller that holds none of the roles
required for that branch, the call rejects with the error of `requireRole`,
whatever the value of `channels`, and the only call made is the one to
`requireRole`. -/
theorem role_first_when_deleted_test_false {ν : Type} (v : Variant) (ops : NumOps ν)
    (caller : List String) (doc : Doc ν) (oldDoc : JSVal ν) (s : String)
    (hid : getProp doc "_id" = .str s) (hnd : v.DeletedTestFalse ops doc)
    (hty : firstSegment v.sep s = "order" ∨ firstSegment v.sep s = "job")
    (hno : holdsAny caller (v.requiredRoles (firstSegment v.sep s)) = false) :
    result (v.sync ops caller doc oldDoc) = .error .missingRole ∧
      (calls (v.sync ops caller doc oldDoc)).any Call.isFieldCheck = false ∧
      calls (v.sync ops caller doc oldDoc)
        = [.requireRole (v.requiredRoles (firstSegment v.sep s))] := by
  rcases hty with h | h
  · simp only [h, Variant.requiredRoles, if_true] at hno
    simp [result, calls, sync_run_nondeleted v ops caller doc oldDoc s hid hnd, typeRun,
      branchRun, h, hno, Variant.requiredRoles, Call.isFieldCheck]
  · have hne : ¬ ("job" = "order") := by decide
    simp only [h, Variant.requiredRoles, hne, if_false] at hno
    simp [result, calls, sync_run_nondeleted v ops caller doc oldDoc s hid hnd, typeRun,
      branchRun, h, hno, Variant.requiredRoles, Call.isFieldCheck]

/-- Counterexample to C3 as stated: the order document
`{_id:"order:5", deleted:true, channels:"public"}` written in variant A by a
caller holding admin, a role valid for order documents, has a defined,
non-null, non-empty, non-numeric `channels`, and yet no call to `channel`
occurs (the call permits through the deletion branch). -/
theorem channel_iff_valid_fails_on_deleted :
    firstSegment Variant.A.sep "order:5" = "order" ∧
      holdsAny ["admin"] (Variant.A.requiredRoles "order") = true ∧
      ¬ ((calls (Variant.A.sync refOps ["admin"]
            [("_id", .str "order:5"), ("deleted", .bool true), ("channels", .str "public")]
            .undefined)).any Call.isChannel = true ↔
          ValidChannels (getProp ([("_id", .str "order:5"), ("deleted", .bool true),
            ("channels", .str "public")] : Doc IntNum) "channels")) := by
  refine ⟨by decide, by decide, ?_⟩
  intro h
  have hv : ValidChannels (getProp ([("_id", .str "order:5"), ("deleted", .bool true),
      ("channels", .str "public")] : Doc IntNum) "channels") := by
    refine ⟨?_, ?_, ?_, ?_⟩ <;> simp [getProp]
  have hc := h.2 hv
  revert hc
  decide

/-- C3, amended: in both variants, for every document with document type
order or job whose `deleted` field is not the boolean true (in variant B:
is absent or falsy, so that the comparison `deleted == true` of that variant
is not evaluated) and every caller holding a role valid for that type, a call
to `channel` occurs if and only if `doc.channels` is defined, not null, not
the empty string and not a number; when one occurs the call permits, and
otherwise it rejects. -/
theorem channel_iff_valid_channels {ν : Type} (v : Variant) (ops : NumOps ν)
    (caller : List String) (doc : Doc ν) (oldDoc : JSVal ν) (s : String)
    (hid : getProp doc "_id" = .str s) (hdel : v.DeletedUnset ops doc)
    (hty : firstSegment v.sep s = "order" ∨ firstSegment v.sep s = "job")
    (hrole : holdsAny caller (v.requiredRoles (firstSegment v.sep s)) = true) :
    ((calls (v.sync ops caller doc oldDoc)).any Call.isChannel = true ↔
        ValidChannels (getProp doc "channels")) ∧
      (result (v.sync ops caller doc oldDoc) = .ok () ↔
        ValidChannels (getProp doc "channels")) := by
  have hnd : v.DeletedTestFalse ops doc := deletedUnset_test_false v ops doc hdel
  rw [← fieldOk_iff]
  have hne : ¬ ("job" = "order") := by decide
  rcases hty with h | h
  · simp only [h, Variant.requiredRoles, if_true] at hrole
    by_cases hf : fieldOk (getProp doc "channels") = true
    · simp [result, calls, sync_run_nondeleted v ops caller doc oldDoc s hid hnd, typeRun,
        branchRun, h, hrole, hf, Call.isChannel]
    · cases ht : toStringJS ops (getProp doc "channels") <;>
      simp [result, calls, sync_run_nondeleted v ops caller doc oldDoc s hid hnd, typeRun,
        branchRun, h, hrole, hf, ht, Call.isChannel]
  · simp only [h, Variant.requiredRoles, hne, if_false] at hrole
    by_cases hf : fieldOk (getProp doc "channels") = true
    · simp [result, calls, sync_run_nondeleted v ops caller doc oldDoc s hid hnd, typeRun,
        branchRun, h, hrole, hf, Call.isChannel]
    · cases ht : toStringJS ops (getProp doc "channels") <;>
      simp [result, calls, sync_run_nondeleted v ops caller doc oldDoc s hid hnd, typeRun,
        branchRun, h, hrole, hf, ht, Call.isChannel]

/-- Witness of the amended C3: the order document
`{_id:"order-1", channels:"public", deleted:false}` written in variant B by a
caller holding user. -/
theorem channel_iff_valid_channels_witness :
    Variant.B.DeletedUnset refOps
        [("_id", .str "order-1"), ("channels", .str "public"), ("deleted", .bool false)] ∧
      ((calls (Variant.B.sync refOps ["user"]
          [("_id", .str "order-1"), ("channels", .str "public"), ("deleted", .bool false)]
          .undefined)).any Call.isChannel = true ↔
        ValidChannels (getProp ([("_id", .str "order-1"), ("channels", .str "public"),
          ("deleted", .bool false)] : Doc IntNum) "channels")) :=
  ⟨rfl,
    (channel_iff_valid_channels Variant.B refOps ["user"]
      [("_id", .str "order-1"), ("channels", .str "public"), ("deleted", .bool false)]
      .undefined "order-1" rfl rfl (Or.inl (by decide)) (by decide)).1⟩

/-- Where the deleted test of the variant is false: for a document whose
identifier is a string with a first delimiter-separated segment that is
neither order nor job, the call rejects with the forbidden reason of the
variant (`error: no docType` in variant A, `error: invalid docType` in
variant B) for every caller, and no call to `requireRole`, `fieldCheck` or
`channel` is made. -/
theorem unknown_type_when_deleted_test_false {ν : Type} (v : Variant) (ops : NumOps ν)
    (caller : List String) (doc : Doc ν) (oldDoc : JSVal ν) (s : String)
    (hid : getProp doc "_id" = .str s) (hnd : v.DeletedTestFalse ops doc)
    (horder : firstSegment v.sep s ≠ "order") (hjob : firstSegment v.sep s ≠ "job") :
    result (v.sync ops caller doc oldDoc) = .error (.forbidden v.docTypeReason) ∧
      calls (v.sync ops caller doc oldDoc) = [] ∧
      Variant.A.docTypeReason = "error: no docType" ∧
      Variant.B.docTypeReason = "error: invalid docType" := by
  simp [result, calls, sync_run_nondeleted v ops caller doc oldDoc s hid hnd, typeRun,
    horder, hjob, Variant.docTypeReason]

/-- Where the deleted test of the variant is false: for a document with a
valid `channels` value and document type order or job, the call permits if
and only if the caller holds at least one role of the set required by the
branch: editor, admin, user for order in both variants; editor, admin for job
in variant A; manager, editor, admin for job in variant B.  In particular a
caller holding only user is permitted on order documents and not on job
documents, and a caller holding only manager is permitted on job documents in
variant B and not in variant A. -/
theorem permit_iff_role_when_deleted_test_false {ν : Type} (v : Variant) (ops : NumOps ν)
    (caller : List String) (doc : Doc ν) (oldDoc : JSVal ν) (s : String)
    (hid : getProp doc "_id" = .str s) (hnd : v.DeletedTestFalse ops doc)
    (hty : firstSegment v.sep s = "order" ∨ firstSegment v.sep s = "job")
    (hch : ValidChannels (getProp doc "channels")) :
    (result (v.sync ops caller doc oldDoc) = .ok () ↔
        holdsAny caller (v.requiredRoles (firstSegment v.sep s)) = true) ∧
      (v.requiredRoles "order" = ["editor", "admin", "user"] ∧
        Variant.A.requiredRoles "job" = ["editor", "admin"] ∧
        Variant.B.requiredRoles "job" = ["manager", "editor", "admin"]) ∧
      (firstSegment v.sep s = "order" → result (v.sync ops ["user"] doc oldDoc) = .ok ()) ∧
      (firstSegment v.sep s = "job" → result (v.sync ops ["user"] doc oldDoc) ≠ .ok ()) ∧
      (firstSegment v.sep s = "job" →
        (result (v.sync ops ["manager"] doc oldDoc) = .ok () ↔ v = Variant.B)) := by
  rw [← fieldOk_iff] at hch
  have hne : ¬ ("job" = "order") := by decide
  have hrun : ∀ c : List String, result (v.sync ops c doc oldDoc) = .ok () ↔
      holdsAny c (v.requiredRoles (firstSegment v.sep s)) = true := by
    intro c
    rcases hty with h | h
    · by_cases hr : holdsAny c ["editor", "admin", "user"] = true <;>
      simp [result, sync_run_nondeleted v ops c doc oldDoc s hid hnd, typeRun, branchRun, h,
        hch, hr, Variant.requiredRoles]
    · by_cases hr : holdsAny c v.jobRoles = true <;>
      simp [result, sync_run_nondeleted v ops c doc oldDoc s hid hnd, typeRun, branchRun, h,
        hch, hr, Variant.requiredRoles, hne]
  refine ⟨hrun caller, ⟨by simp [Variant.requiredRoles], by decide, by decide⟩, ?_, ?_, ?_⟩
  · intro h
    rw [hrun, h]
    simp [Variant.requiredRoles, holdsAny]
  · intro h
    rw [ne_eq, hrun, h]
    cases v <;> decide
  · intro h
    rw [hrun, h]
    cases v <;> decide

/-- C6: `fieldCheck(v)` returns true if and only if `v` is defined, not null,
not the empty string and not a number; for every other `v` it throws the
forbidden rejection whose reason is `error: field '` followed by the string
rendering of `v` and by `' has errors`, so that the absent value appears as
`undefined`, null as `null`, and a number as its rendering. -/
theorem fieldCheck_returns_or_rejects {ν : Type} (ops : NumOps ν) (v : JSVal ν)
    (t : List (Call ν)) :
    ((fieldCheck ops v t).1 = .ok true ↔ ValidChannels v) ∧
      (¬ ValidChannels v → ∃ r, toStringJS ops v = some r ∧
        (fieldCheck ops v t).1 = .error (.forbidden ("error: field '" ++ r ++ "' has errors"))) ∧
      (fieldCheck ops .undefined t).1
        = .error (.forbidden "error: field 'undefined' has errors") ∧
      (fieldCheck ops .null t).1 = .error (.forbidden "error: field 'null' has errors") ∧
      (fieldCheck ops (.str "") t).1 = .error (.forbidden "error: field '' has errors") ∧
      (∀ n, (fieldCheck ops (.num n) t).1
        = .error (.forbidden ("error: field '" ++ ops.toStr n ++ "' has errors"))) := by
  refine ⟨?_, ?_, ?_, ?_, ?_, ?_⟩
  · rw [← fieldOk_iff, fieldCheck_run]
    by_cases hf : fieldOk v = true
    · simp [hf]
    · cases ht : toStringJS ops v <;> simp [hf, ht]
  · intro hv
    rw [← fieldOk_iff] at hv
    rw [fieldCheck_run]
    cases v <;> simp_all [fieldOk, typeofJS, strictEqNull, strictEqStr, toStringJS]
  · rw [fieldCheck_run]; rfl
  · rw [fieldCheck_run]; rfl
  · rw [fieldCheck_run]; rfl
  · intro n
    rw [fieldCheck_run]; rfl

/-- Witness of C6: `fieldCheck(42)` rejects with `error: field '42' has
errors`, and so does the write of `{_id:"job:7", channels:42}` in variant A
by a caller holding admin. -/
theorem fieldCheck_returns_or_rejects_witness :
    ¬ ValidChannels (.num (.int 42) : JSVal IntNum) ∧
      (∃ r, toStringJS refOps (.num (.int 42)) = some r ∧
        (fieldCheck refOps (.num (.int 42)) []).1
          = .error (.forbidden ("error: field '" ++ r ++ "' has errors"))) ∧
      result (Variant.A.sync refOps ["admin"]
        [("_id", .str "job:7"), ("channels", .num (.int 42))] .undefined)
        = .error (.forbidden "error: field '42' has errors") :=
  ⟨fun h => h.2.2.2 (.int 42) rfl,
    (fieldCheck_returns_or_rejects refOps (.num (.int 42)) []).2.1
      (fun h => h.2.2.2 (.int 42) rfl),
    rfl⟩

/-- C7: in variant B, for every document whose `_id` is not a string (absent,
null, a number or any other value), the call rejects with the forbidden
reason `error: invalid document ID format` and makes no call to
`requireRole`, `fieldCheck` or `channel`, for every caller and every value of
`deleted` and `channels`. -/
theorem syncB_rejects_unsplittable_id {ν : Type} (ops : NumOps ν) (caller : List String)
    (doc : Doc ν) (oldDoc : JSVal ν) (hid : ∀ s, getProp doc "_id" ≠ .str s) :
    result (syncB ops caller doc oldDoc)
        = .error (.forbidden "error: invalid document ID format") ∧
      calls (syncB ops caller doc oldDoc) = [] := by
  simp [result, calls, syncB_run_nonstr ops caller doc oldDoc hid]

/-- Witness of C7: the document `{deleted:true, channels:"public"}`, with no
`_id`, written by a caller holding admin. -/
theorem syncB_rejects_unsplittable_id_witness :
    (∀ s, getProp ([("deleted", .bool true), ("channels", .str "public")] : Doc IntNum) "_id"
        ≠ .str s) ∧
      result (syncB refOps ["admin"] [("deleted", .bool true), ("channels", .str "public")]
        .undefined) = .error (.forbidden "error: invalid document ID format") ∧
      calls (syncB refOps ["admin"] [("deleted", .bool true), ("channels", .str "public")]
        .undefined) = [] :=
  ⟨fun s h => by simp [getProp] at h,
    syncB_rejects_unsplittable_id refOps ["admin"]
      [("deleted", .bool true), ("channels", .str "public")] .undefined
      (fun s h => by simp [getProp] at h)⟩

/-- C8, at the failing input: for the document `{_id:"widget-1", deleted:1}`
and a caller holding admin, variant B takes the deletion branch (it permits,
with `requireRole(["editor","admin"])` as its only call), although `deleted`
is not the boolean true; variant A on the same document with the delimiter
of that variant, `{_id:"widget:1", deleted:1}`, goes to the branching on the
document type and rejects with `error: no docType`. -/
theorem syncB_deleted_test_is_loose :
    result (syncB refOps ["admin"] [("_id", .str "widget-1"), ("deleted", .num (.int 1))]
        .undefined) = .ok () ∧
      calls (syncB refOps ["admin"] [("_id", .str "widget-1"), ("deleted", .num (.int 1))]
        .undefined) = [.requireRole ["editor", "admin"]] ∧
      result (syncA refOps ["admin"] [("_id", .str "widget:1"), ("deleted", .num (.int 1))]
        .undefined) = .error (.forbidden "error: no docType") ∧
      calls (syncA refOps ["admin"] [("_id", .str "widget:1"), ("deleted", .num (.int 1))]
        .undefined) = [] :=
  ⟨rfl, rfl, rfl, rfl⟩

theorem branchRun_channel {ν : Type} (ops : NumOps ν) (caller roles : List String)
    (w : JSVal ν) : ChannelOnlyOnSuccess (branchRun ops caller roles w) := by
  unfold ChannelOnlyOnSuccess branchRun
  by_cases h1 : holdsAny caller roles = true
  · by_cases h2 : fieldOk w = true
    · simp [h1, h2, Call.isChannel]
    · simp [h1, h2, Call.isChannel]
  · simp [h1, Call.isChannel]

theorem typeRun_channel {ν : Type} (ops : NumOps ν) (caller jobRoles : List String)
    (msg docType : String) (w : JSVal ν) :
    ChannelOnlyOnSuccess (typeRun ops caller jobRoles msg docType w) := by
  unfold typeRun
  split
  · exact branchRun_channel ops caller _ w
  · split
    · exact branchRun_channel ops caller _ w
    · simp [ChannelOnlyOnSuccess]

theorem deletionRun_channel {ν : Type} (caller : List String) :
    ChannelOnlyOnSuccess (deletionRun caller : Except Thrown Unit × List (Call ν)) := by
  simp [ChannelOnlyOnSuccess, deletionRun, Call.isChannel]

theorem sync_channel {ν : Type} (v : Variant) (ops : NumOps ν) (caller : List String)
    (doc : Doc ν) (oldDoc : JSVal ν) :
    ChannelOnlyOnSuccess (v.sync ops caller doc oldDoc []) := by
  by_cases hid : ∃ s, getProp doc "_id" = .str s
  · obtain ⟨s, hs⟩ := hid
    cases v with
    | A =>
      rw [Variant.sync, syncA_run ops caller doc oldDoc s hs]
      split
      · exact deletionRun_channel caller
      · exact typeRun_channel ops caller _ _ _ _
    | B =>
      rw [Variant.sync, syncB_run ops caller doc oldDoc s hs]
      split
      · split
        · simp [ChannelOnlyOnSuccess]
        · exact deletionRun_channel caller
        · exact typeRun_channel ops caller _ _ _ _
      · exact typeRun_channel ops caller _ _ _ _
  · have hid2 : ∀ s, getProp doc "_id" ≠ .str s := fun s h => hid ⟨s, h⟩
    cases v with
    | A =>
      rw [Variant.sync, syncA_run_nonstr ops caller doc oldDoc hid2]
      simp [ChannelOnlyOnSuccess]
    | B =>
      rw [Variant.sync, syncB_run_nonstr ops caller doc oldDoc hid2]
      simp [ChannelOnlyOnSuccess]

theorem holdsAny_congr (caller other roles : List String)
    (h : ∀ r, r ∈ caller ↔ r ∈ other) : holdsAny caller roles = holdsAny other roles := by
  unfold holdsAny
  congr 1
  funext r
  have := h r
  by_cases hr : r ∈ caller
  · simp [hr, this.1 hr]
  · have hr2 : r ∉ other := fun h2 => hr (this.2 h2)
    simp [hr, hr2]

theorem requireRole_congr {ν : Type} (caller other : List String)
    (h : ∀ r, r ∈ caller ↔ r ∈ other) :
    (requireRole caller : List String → Exec ν Unit) = requireRole other := by
  funext roles
  simp only [requireRole, holdsAny_congr caller other roles h]

/-- C9: in both variants, for every document and caller, `channel` is invoked
at most once in a call, and only in a call that completes normally: a call
that ends in a rejection (role error, field error, document type error,
identifier format error) or in a runtime error has declared no channel. -/
theorem channel_at_most_once_and_only_on_permit {ν : Type} (v : Variant) (ops : NumOps ν)
    (caller : List String) (doc : Doc ν) (oldDoc : JSVal ν) :
    ((calls (v.sync ops caller doc oldDoc)).filter Call.isChannel).length ≤ 1 ∧
      (result (v.sync ops caller doc oldDoc) = .ok () ∨
        (calls (v.sync ops caller doc oldDoc)).any Call.isChannel = false) :=
  sync_channel v ops caller doc oldDoc

/-- C10: in both variants, the outcome of a call, its result and the calls it
makes (the declared channel included), is a function of `doc._id`,
`doc.deleted`, `doc.channels` and the set of roles the caller holds: two calls
that agree on these give the same outcome, whatever the two values of
`oldDoc` and the other fields of the two documents. -/
theorem outcome_depends_on_id_deleted_channels_roles {ν : Type} (v : Variant)
    (ops : NumOps ν) (caller other : List String) (doc doc2 : Doc ν) (oldDoc oldDoc2 : JSVal ν)
    (hroles : ∀ r, r ∈ caller ↔ r ∈ other)
    (hid : getProp doc "_id" = getProp doc2 "_id")
    (hdel : getProp doc "deleted" = getProp doc2 "deleted")
    (hch : getProp doc "channels" = getProp doc2 "channels") :
    result (v.sync ops caller doc oldDoc) = result (v.sync ops other doc2 oldDoc2) ∧
      calls (v.sync ops caller doc oldDoc) = calls (v.sync ops other doc2 oldDoc2) := by
  have hsync : v.sync ops caller doc oldDoc = v.sync ops other doc2 oldDoc2 := by
    cases v with
    | A => simp only [Variant.sync, syncA, hid, hdel, hch, requireRole_congr caller other hroles]
    | B => simp only [Variant.sync, syncB, hid, hdel, hch, requireRole_congr caller other hroles]
  simp [result, calls, hsync]

/-- Witness of C10: two order documents that agree on `_id`, `deleted` and
`channels` and differ in another field, written with different previous
revisions by callers holding the same roles in different order. -/
theorem outcome_depends_on_id_deleted_channels_roles_witness :
    result (Variant.A.sync refOps ["user", "admin"]
        [("_id", .str "order:1"), ("channels", .str "public"), ("total", .num (.int 3))]
        .undefined)
      = result (Variant.A.sync refOps ["admin", "user"]
        [("note", .str "x"), ("channels", .str "public"), ("_id", .str "order:1")]
        (.obj [("_id", .str "order:1")])) ∧
    calls (Variant.A.sync refOps ["user", "admin"]
        [("_id", .str "order:1"), ("channels", .str "public"), ("total", .num (.int 3))]
        .undefined)
      = calls (Variant.A.sync refOps ["admin", "user"]
        [("note", .str "x"), ("channels", .str "public"), ("_id", .str "order:1")]
        (.obj [("_id", .str "order:1")])) :=
  outcome_depends_on_id_deleted_channels_roles Variant.A refOps ["user", "admin"]
    ["admin", "user"]
    [("_id", .str "order:1"), ("channels", .str "public"), ("total", .num (.int 3))]
    [("note", .str "x"), ("channels", .str "public"), ("_id", .str "order:1")]
    .undefined (.obj [("_id", .str "order:1")])
    (by intro r; simp [or_comm]) rfl rfl rfl

/-- Where the deleted test of the variant is false: for every permitted call
on an order or job document, the value passed to `channel` is exactly
`doc.channels` as read from the document, not a part or a transformation of
it: the calls of the run are `requireRole`, then `fieldCheck(doc.channels)`,
then `channel(doc.channels)`, and the one declared channel value is
`doc.channels`. -/
theorem channel_value_when_deleted_test_false {ν : Type} (v : Variant) (ops : NumOps ν)
    (caller : List String) (doc : Doc ν) (oldDoc : JSVal ν) (s : String)
    (hid : getProp doc "_id" = .str s) (hnd : v.DeletedTestFalse ops doc)
    (hty : firstSegment v.sep s = "order" ∨ firstSegment v.sep s = "job")
    (hok : result (v.sync ops caller doc oldDoc) = .ok ()) :
    declaredChannels (calls (v.sync ops caller doc oldDoc)) = [getProp doc "channels"] ∧
      calls (v.sync ops caller doc oldDoc) =
        [.requireRole (v.requiredRoles (firstSegment v.sep s)),
          .fieldCheck (getProp doc "channels"), .channel (getProp doc "channels")] := by
  have hne : ¬ ("job" = "order") := by decide
  have hrun := sync_run_nondeleted v ops caller doc oldDoc s hid hnd
  simp only [result, calls, hrun] at hok ⊢
  rcases hty with h | h
  · simp only [typeRun, h, if_true, branchRun] at hok ⊢
    by_cases hr : holdsAny caller ["editor", "admin", "user"] = true
    · by_cases hf : fieldOk (getProp doc "channels") = true
      · simp [hr, hf, Variant.requiredRoles, declaredChannels]
      · cases ht : toStringJS ops (getProp doc "channels") <;> simp [hr, hf, ht] at hok
    · simp [hr] at hok
  · simp only [typeRun, h, hne, if_false, if_true, branchRun] at hok ⊢
    by_cases hr : holdsAny caller v.jobRoles = true
    · by_cases hf : fieldOk (getProp doc "channels") = true
      · simp [hr, hf, Variant.requiredRoles, declaredChannels]
      · cases ht : toStringJS ops (getProp doc "channels") <;> simp [hr, hf, ht] at hok
    · simp [hr] at hok

theorem takeWhile_before_first (sep : Char) (cs : List Char) :
    ∃ rest, cs = cs.takeWhile (fun c => c != sep) ++ rest ∧
      sep ∉ cs.takeWhile (fun c => c != sep) ∧ (rest = [] ∨ rest.head? = some sep) := by
  induction cs with
  | nil => exact ⟨[], by simp⟩
  | cons c cs ih =>
    by_cases h : c = sep
    · refine ⟨c :: cs, ?_, ?_, ?_⟩
      · simp [List.takeWhile_cons, h]
      · simp [List.takeWhile_cons, h]
      · right; simp [h]
    · obtain ⟨rest, h1, h2, h3⟩ := ih
      have hc : (c != sep) = true := by simp [h]
      refine ⟨rest, ?_, ?_, h3⟩
      · rw [List.takeWhile_cons, hc]
        simp only [if_true, List.cons_append]
        rw [← h1]
      · rw [List.takeWhile_cons, hc]
        simp only [if_true, List.mem_cons, not_or]
        exact ⟨fun e => h e.symm, h2⟩

theorem takeWhile_without_sep (sep : Char) (cs : List Char) (h : sep ∉ cs) :
    cs.takeWhile (fun c => c != sep) = cs := by
  induction cs with
  | nil => rfl
  | cons c cs ih =>
    simp only [List.mem_cons, not_or] at h
    have hc : (c != sep) = true := by
      simp only [bne_iff_ne, ne_eq]
      exact fun e => h.1 e.symm
    rw [List.takeWhile_cons, hc]
    simp [ih h.2]

/-- C12: for every string identifier and both delimiters, the split succeeds
and its first element is a string, never `undefined`: it is the first
segment, the part of the identifier before the first occurrence of the
delimiter (the identifier is that part followed by nothing or by a rest that
starts with the delimiter, and the part holds no delimiter).  An identifier
with no delimiter is its own document type, so `_id` equal to `order` makes a
document on which the deleted test of the variant is false run the order
branch, and the empty identifier has the empty document type and is rejected
with the document type reason. -/
theorem doc_type_is_first_segment {ν : Type} (v : Variant) (ops : NumOps ν) (s : String)
    (t : List (Call ν)) :
    (∃ segs, split (.str s : JSVal ν) v.sep t = (.ok segs, t) ∧
        (index segs 0 : JSVal ν) = .str (firstSegment v.sep s)) ∧
      (∃ rest, s.data = (firstSegment v.sep s).data ++ rest ∧
        v.sep ∉ (firstSegment v.sep s).data ∧ (rest = [] ∨ rest.head? = some v.sep)) ∧
      (v.sep ∉ s.data → firstSegment v.sep s = s) ∧
      (∀ (caller : List String) (doc : Doc ν) (oldDoc : JSVal ν),
        getProp doc "_id" = .str "order" → v.DeletedTestFalse ops doc →
        v.sync ops caller doc oldDoc [] =
          branchRun ops caller ["editor", "admin", "user"] (getProp doc "channels")) ∧
      (∀ (caller : List String) (doc : Doc ν) (oldDoc : JSVal ν),
        getProp doc "_id" = .str "" → v.DeletedTestFalse ops doc →
        firstSegment v.sep "" = "" ∧
        result (v.sync ops caller doc oldDoc) = .error (.forbidden v.docTypeReason) ∧
        calls (v.sync ops caller doc oldDoc) = []) := by
  refine ⟨?_, ?_, ?_, ?_, ?_⟩
  · exact ⟨_, rfl, index_split_zero v.sep s⟩
  · exact takeWhile_before_first v.sep s.data
  · intro h
    simp only [firstSegment, takeWhile_without_sep v.sep s.data h]
  · intro caller doc oldDoc hid hnd
    have hseg : firstSegment v.sep "order" = "order" := by cases v <;> decide
    rw [sync_run_nondeleted v ops caller doc oldDoc "order" hid hnd, hseg]
    simp [typeRun]
  · intro caller doc oldDoc hid hnd
    have hseg : firstSegment v.sep "" = "" := by cases v <;> decide
    have h1 : ¬ ("" = "order") := by decide
    have h2 : ¬ ("" = "job") := by decide
    refine ⟨hseg, ?_⟩
    simp [result, calls, sync_run_nondeleted v ops caller doc oldDoc "" hid hnd, hseg, typeRun,
      h1, h2]

/-- Witness of C12: in variant A the identifier `order`, which holds no
colon, is its own first segment, and the document `{_id:"order",
channels:"public"}` written by a caller holding user runs the order branch. -/
theorem doc_type_is_first_segment_witness :
    Variant.A.sep ∉ "order".data ∧
      firstSegment Variant.A.sep "order" = "order" ∧
      Variant.A.sync refOps ["user"] [("_id", .str "order"), ("channels", .str "public")]
          .undefined [] =
        branchRun refOps ["user"] ["editor", "admin", "user"]
          (getProp ([("_id", .str "order"), ("channels", .str "public")] : Doc IntNum)
            "channels") :=
  ⟨by decide,
    (doc_type_is_first_segment Variant.A refOps "order" ([] : List (Call IntNum))).2.2.1
      (by decide),
    (doc_type_is_first_segment Variant.A refOps "order" ([] : List (Call IntNum))).2.2.2.1
      ["user"] [("_id", .str "order"), ("channels", .str "public")] .undefined rfl
      (by simp [Variant.DeletedTestFalse, getProp])⟩

/-- C13: in variant A, for every document whose `_id` is absent, for every
caller and every value of `deleted` and `channels`, the call ends in a
runtime TypeError, which is neither normal completion nor a forbidden
rejection nor the rejection of `requireRole`, and it does so before any call
to `requireRole`, `fieldCheck` or `channel`. -/
theorem syncA_absent_id_is_fatal {ν : Type} (ops : NumOps ν) (caller : List String)
    (doc : Doc ν) (oldDoc : JSVal ν) (hid : getProp doc "_id" = .undefined) :
    result (syncA ops caller doc oldDoc) = .error .typeError ∧
      result (syncA ops caller doc oldDoc) ≠ .ok () ∧
      (∀ reason, result (syncA ops caller doc oldDoc) ≠ .error (.forbidden reason)) ∧
      result (syncA ops caller doc oldDoc) ≠ .error .missingRole ∧
      calls (syncA ops caller doc oldDoc) = [] := by
  have hns : ∀ s, getProp doc "_id" ≠ .str s := by
    intro s h
    rw [hid] at h
    cases h
  simp [result, calls, syncA_run_nonstr ops caller doc oldDoc hns]

/-- Witness of C13: the document `{deleted:true, channels:"public"}`, with no
`_id`, written in variant A by a caller holding admin. -/
theorem syncA_absent_id_is_fatal_witness :
    getProp ([("deleted", .bool true), ("channels", .str "public")] : Doc IntNum) "_id"
        = .undefined ∧
      result (syncA refOps ["admin"] [("deleted", .bool true), ("channels", .str "public")]
        .undefined) = .error .typeError ∧
      calls (syncA refOps ["admin"] [("deleted", .bool true), ("channels", .str "public")]
        .undefined) = [] :=
  ⟨rfl,
    (syncA_absent_id_is_fatal refOps ["admin"]
      [("deleted", .bool true), ("channels", .str "public")] .undefined rfl).1,
    (syncA_absent_id_is_fatal refOps ["admin"]
      [("deleted", .bool true), ("channels", .str "public")] .undefined rfl).2.2.2.2⟩

theorem branchRun_outcome {ν : Type} (ops : NumOps ν) (caller roles other : List String)
    (w : JSVal ν) (h : holdsAny caller roles = holdsAny caller other) :
    (branchRun ops caller roles w).1 = (branchRun ops caller other w).1 ∧
      declaredChannels (branchRun ops caller roles w).2
        = declaredChannels (branchRun ops caller other w).2 := by
  unfold branchRun
  rw [h]
  by_cases h1 : holdsAny caller other = true
  · by_cases h2 : fieldOk w = true
    · simp [h1, h2, declaredChannels]
    · simp [h1, h2, declaredChannels]
  · simp [h1, declaredChannels]

theorem holdsAny_without_manager (caller : List String) (h : "manager" ∉ caller) :
    holdsAny caller ["manager", "editor", "admin"] = holdsAny caller ["editor", "admin"] := by
  simp [holdsAny, h]

theorem nonDeletedB_not_true {ν : Type} (ops : NumOps ν) (doc : Doc ν)
    (h : Variant.B.DeletedTestFalse ops doc) : Variant.A.DeletedTestFalse ops doc := by
  intro hd
  rcases h with h | h
  · simp [hd, toBoolean] at h
  · simp [hd, looseEqTrue] at h

/-- Where the two variants agree: for a string identifier holding neither
delimiter, a caller not holding manager, and a `deleted` field that is the
boolean true or that variant B does not treat as deleted, the two runs
declare the same channels and have the same result, up to the text of the
document type reason. -/
theorem variants_agree_off_loose_deleted {ν : Type} (ops : NumOps ν) (caller : List String)
    (doc : Doc ν) (oldDoc : JSVal ν) (s : String) (hid : getProp doc "_id" = .str s)
    (hA : ':' ∉ s.data) (hB : '-' ∉ s.data) (hman : "manager" ∉ caller)
    (hdel : getProp doc "deleted" = .bool true ∨ Variant.B.DeletedTestFalse ops doc) :
    declaredChannels (calls (syncA ops caller doc oldDoc))
        = declaredChannels (calls (syncB ops caller doc oldDoc)) ∧
      (result (syncA ops caller doc oldDoc) = result (syncB ops caller doc oldDoc) ∨
        (result (syncA ops caller doc oldDoc) = .error (.forbidden "error: no docType") ∧
          result (syncB ops caller doc oldDoc)
            = .error (.forbidden "error: invalid docType"))) := by
  rcases hdel with hd | hd
  · have h1 := sync_run_deleted Variant.A ops caller doc oldDoc s hid hd
    have h2 := sync_run_deleted Variant.B ops caller doc oldDoc s hid hd
    simp only [Variant.sync] at h1 h2
    simp [result, calls, h1, h2]
  · have h1 := sync_run_nondeleted Variant.A ops caller doc oldDoc s hid
      (nonDeletedB_not_true ops doc hd)
    have h2 := sync_run_nondeleted Variant.B ops caller doc oldDoc s hid hd
    have hsA : firstSegment ':' s = s := by
      simp only [firstSegment, takeWhile_without_sep ':' s.data hA]
    have hsB : firstSegment '-' s = s := by
      simp only [firstSegment, takeWhile_without_sep '-' s.data hB]
    simp only [Variant.sync, Variant.sep, Variant.jobRoles, Variant.docTypeReason, hsA, hsB]
      at h1 h2
    simp only [result, calls, h1, h2, typeRun]
    by_cases ho : s = "order"
    · simp [ho]
    · by_cases hj : s = "job"
      · have hb := branchRun_outcome ops caller ["editor", "admin"]
          ["manager", "editor", "admin"] (getProp doc "channels")
          (holdsAny_without_manager caller hman).symm
        simp only [ho, hj, if_false, if_true]
        exact ⟨hb.2, Or.inl hb.1⟩
      · simp [ho, hj, declaredChannels]

/-- C14, at the failing input: for the document `{_id:"widget", deleted:1}`,
whose identifier holds neither delimiter, and a caller holding admin and not
manager, variant A rejects with `error: no docType` and makes no call while
variant B permits through its deletion branch; for the document
`{_id:"order", deleted:1, channels:"public"}` and the same caller, variant A
declares the channel `"public"` and variant B declares none. -/
theorem variants_differ_on_loose_deleted :
    result (syncA refOps ["admin"] [("_id", .str "widget"), ("deleted", .num (.int 1))]
        .undefined) = .error (.forbidden "error: no docType") ∧
      result (syncB refOps ["admin"] [("_id", .str "widget"), ("deleted", .num (.int 1))]
        .undefined) = .ok () ∧
      declaredChannels (calls (syncA refOps ["admin"]
        [("_id", .str "order"), ("deleted", .num (.int 1)), ("channels", .str "public")]
        .undefined)) = [.str "public"] ∧
      declaredChannels (calls (syncB refOps ["admin"]
        [("_id", .str "order"), ("deleted", .num (.int 1)), ("channels", .str "public")]
        .undefined)) = [] :=
  ⟨rfl, rfl, rfl, rfl⟩

theorem holdsAny_mono (caller roles other : List String) (hsub : ∀ r, r ∈ roles → r ∈ other)
    (h : holdsAny caller roles = true) : holdsAny caller other = true := by
  simp only [holdsAny, List.any_eq_true] at h ⊢
  obtain ⟨r, hr, hc⟩ := h
  exact ⟨r, hsub r hr, hc⟩

theorem branchRun_ok {ν : Type} (ops : NumOps ν) (caller roles : List String) (w : JSVal ν)
    (h : (branchRun ops caller roles w).1 = .ok ()) : holdsAny caller roles = true := by
  unfold branchRun at h
  by_cases h1 : holdsAny caller roles = true
  · exact h1
  · simp [h1] at h

theorem deletionRun_ok {ν : Type} (caller : List String)
    (h : (deletionRun caller : Except Thrown Unit × List (Call ν)).1 = .ok ()) :
    holdsAny caller ["editor", "admin"] = true := by
  unfold deletionRun at h
  by_cases h1 : holdsAny caller ["editor", "admin"] = true
  · exact h1
  · simp [h1] at h

theorem typeRun_ok {ν : Type} (ops : NumOps ν) (caller jobRoles : List String)
    (msg docType : String) (w : JSVal ν)
    (h : (typeRun ops caller jobRoles msg docType w).1 = .ok ()) :
    holdsAny caller ["editor", "admin", "user"] = true ∨ holdsAny caller jobRoles = true := by
  unfold typeRun at h
  split at h
  · exact Or.inl (branchRun_ok ops caller _ w h)
  · split at h
    · exact Or.inr (branchRun_ok ops caller _ w h)
    · simp at h

theorem sync_ok_role {ν : Type} (v : Variant) (ops : NumOps ν) (caller : List String)
    (doc : Doc ν) (oldDoc : JSVal ν) (h : (v.sync ops caller doc oldDoc []).1 = .ok ()) :
    holdsAny caller ["editor", "admin"] = true ∨
      holdsAny caller ["editor", "admin", "user"] = true ∨
      holdsAny caller v.jobRoles = true := by
  by_cases hid : ∃ s, getProp doc "_id" = .str s
  · obtain ⟨s, hs⟩ := hid
    cases v with
    | A =>
      rw [Variant.sync, syncA_run ops caller doc oldDoc s hs] at h
      split at h
      · exact Or.inl (deletionRun_ok caller h)
      · exact Or.inr (typeRun_ok ops caller _ _ _ _ h)
    | B =>
      rw [Variant.sync, syncB_run ops caller doc oldDoc s hs] at h
      split at h
      · split at h
        · simp at h
        · exact Or.inl (deletionRun_ok caller h)
        · exact Or.inr (typeRun_ok ops caller _ _ _ _ h)
      · exact Or.inr (typeRun_ok ops caller _ _ _ _ h)
  · have hid2 : ∀ s, getProp doc "_id" ≠ .str s := fun s e => hid ⟨s, e⟩
    cases v with
    | A =>
      rw [Variant.sync, syncA_run_nonstr ops caller doc oldDoc hid2] at h
      simp at h
    | B =>
      rw [Variant.sync, syncB_run_nonstr ops caller doc oldDoc hid2] at h
      simp at h

/-- C15: in both variants, for every document, previous revision and caller,
a call that completes normally has passed a role check: the caller holds at
least one of the roles editor, admin, user, manager.  So a caller holding no
role, or only roles outside this set, is never permitted, whatever the
document. -/
theorem permit_implies_role_held {ν : Type} (v : Variant) (ops : NumOps ν)
    (caller : List String) (doc : Doc ν) (oldDoc : JSVal ν) :
    (result (v.sync ops caller doc oldDoc) = .ok () →
        holdsAny caller ["editor", "admin", "user", "manager"] = true) ∧
      ((∀ r, r ∈ caller → r ∉ ["editor", "admin", "user", "manager"]) →
        result (v.sync ops caller doc oldDoc) ≠ .ok ()) ∧
      result (v.sync ops [] doc oldDoc) ≠ .ok () := by
  have key : ∀ c : List String, result (v.sync ops c doc oldDoc) = .ok () →
      holdsAny c ["editor", "admin", "user", "manager"] = true := by
    intro c h
    rcases sync_ok_role v ops c doc oldDoc h with h1 | h1 | h1
    · exact holdsAny_mono c _ _ (by intro r hr; simp at hr ⊢; tauto) h1
    · exact holdsAny_mono c _ _ (by intro r hr; simp at hr ⊢; tauto) h1
    · cases v
      · exact holdsAny_mono c _ _ (by intro r hr; simp [Variant.jobRoles] at hr ⊢; tauto) h1
      · exact holdsAny_mono c _ _ (by intro r hr; simp [Variant.jobRoles] at hr ⊢; tauto) h1
  refine ⟨key caller, ?_, ?_⟩
  · intro hout hok
    have h := key caller hok
    simp only [holdsAny, List.any_eq_true] at h
    obtain ⟨r, hr, hc⟩ := h
    exact hout r (by simpa using hc) hr
  · intro hok
    have h := key [] hok
    simp [holdsAny] at h

/-- Witness of C15: the permitted write of `{_id:"job-1", channels:"ops"}` in
variant B by a caller holding only manager, and the rejected write of the same
document by a caller holding only the role guest. -/
theorem permit_implies_role_held_witness :
    result (Variant.B.sync refOps ["manager"] [("_id", .str "job-1"), ("channels", .str "ops")]
        .undefined) = .ok () ∧
      holdsAny ["manager"] ["editor", "admin", "user", "manager"] = true ∧
      result (Variant.B.sync refOps ["guest"] [("_id", .str "job-1"), ("channels", .str "ops")]
        .undefined) ≠ .ok () :=
  ⟨rfl,
    (permit_implies_role_held Variant.B refOps ["manager"]
      [("_id", .str "job-1"), ("channels", .str "ops")] .undefined).1 rfl,
    (permit_implies_role_held Variant.B refOps ["guest"]
      [("_id", .str "job-1"), ("channels", .str "ops")] .undefined).2.1
      (by intro r hr; simp at hr; subst hr; decide)⟩

/-- The helper `fieldCheck` does not require a string: it returns true for the
booleans false and true, for every array (the empty one included), for every
object and for every non-empty string (a string made of blanks included).
Where the deleted test of the variant is false, an order document that
carries such a value in `channels`, written by a caller holding a role of the
order branch, is permitted and that very value is passed to `channel`. -/
theorem fieldCheck_non_strings_when_deleted_test_false {ν : Type} (v : Variant) (ops : NumOps ν)
    (caller : List String) (doc : Doc ν) (oldDoc : JSVal ν) (s : String)
    (t : List (Call ν)) :
    ((∀ b, (fieldCheck ops (.bool b) t).1 = .ok true) ∧
        (∀ xs, (fieldCheck ops (.arr xs) t).1 = .ok true) ∧
        (∀ fields, (fieldCheck ops (.obj fields) t).1 = .ok true) ∧
        (∀ w : String, w ≠ "" → (fieldCheck ops (.str w) t).1 = .ok true) ∧
        (fieldCheck ops (.str " ") t).1 = .ok true ∧
        (fieldCheck ops (.arr []) t).1 = .ok true) ∧
      (getProp doc "_id" = .str s → v.DeletedTestFalse ops doc → firstSegment v.sep s = "order" →
        holdsAny caller ["editor", "admin", "user"] = true →
        ((∃ b, getProp doc "channels" = .bool b) ∨ (∃ xs, getProp doc "channels" = .arr xs) ∨
          (∃ fields, getProp doc "channels" = .obj fields) ∨
          (∃ w : String, w ≠ "" ∧ getProp doc "channels" = .str w)) →
        result (v.sync ops caller doc oldDoc) = .ok () ∧
          declaredChannels (calls (v.sync ops caller doc oldDoc)) = [getProp doc "channels"]) := by
  have hfc : ∀ w : JSVal ν, fieldOk w = true → (fieldCheck ops w t).1 = .ok true := by
    intro w hw
    simp [fieldCheck_run, hw]
  refine ⟨⟨?_, ?_, ?_, ?_, ?_, ?_⟩, ?_⟩
  · intro b; exact hfc _ (by simp [fieldOk, typeofJS, strictEqNull, strictEqStr])
  · intro xs; exact hfc _ (by simp [fieldOk, typeofJS, strictEqNull, strictEqStr])
  · intro fields; exact hfc _ (by simp [fieldOk, typeofJS, strictEqNull, strictEqStr])
  · intro w hw; exact hfc _ (by simp [fieldOk, typeofJS, strictEqNull, strictEqStr, hw])
  · exact hfc _ (by simp [fieldOk, typeofJS, strictEqNull, strictEqStr])
  · exact hfc _ (by simp [fieldOk, typeofJS, strictEqNull, strictEqStr])
  · intro hid hnd hty hrole hval
    have hf : fieldOk (getProp doc "channels") = true := by
      rcases hval with ⟨b, h⟩ | ⟨xs, h⟩ | ⟨fields, h⟩ | ⟨w, hw, h⟩ <;>
        simp [h, fieldOk, typeofJS, strictEqNull, strictEqStr]
      exact hw
    simp [result, calls, sync_run_nondeleted v ops caller doc oldDoc s hid hnd, typeRun,
      branchRun, hty, hrole, hf, declaredChannels]

/-! ## Claims that variant B breaks through its loose deleted test

Variant A tests `doc.deleted === true`; variant B tests `doc.deleted == true`.
The documents below are non-deleted in the sense of the specification, and
variant B treats them as deletions or throws on them. -/

/-- Values of `deleted` on which the test of variant B is false although they
are truthy: the number 2 and the string `true`; such documents go to the
branching on the document type, here to its last branch.  The string `1` and
the array `[1]` are loosely equal to true. -/
theorem syncB_deleted_test_false_examples :
    looseEqTrue refOps (.num (.int 2)) = some false ∧
      looseEqTrue refOps (.str "true") = some false ∧
      looseEqTrue refOps (.str "1") = some true ∧
      looseEqTrue refOps (.arr [.num (.int 1)]) = some true ∧
      result (syncB refOps ["admin"] [("_id", .str "widget-1"), ("deleted", .num (.int 2))]
        .undefined) = .error (.forbidden "error: invalid docType") ∧
      result (syncB refOps ["admin"] [("_id", .str "widget-1"), ("deleted", .str "true")]
        .undefined) = .error (.forbidden "error: invalid docType") :=
  ⟨rfl, rfl, rfl, rfl, rfl, rfl⟩

/-- C2, at the failing input: the job document
`{_id:"job-1", deleted:{toString:"x"}, channels:42}`, whose `deleted` field is
not the boolean true, written in variant B by a caller holding only user,
who holds none of the roles of the job branch: the comparison
`deleted == true` throws a TypeError before `requireRole` is called, so the
call does not end in the role error.  Variant A on the same document with
its delimiter rejects with the role error after the single call to
`requireRole`. -/
theorem syncB_loose_deleted_preempts_role_check :
    NotDeleted ([("_id", .str "job-1"), ("deleted", .obj [("toString", .str "x")]),
        ("channels", .num (.int 42))] : Doc IntNum) ∧
      firstSegment Variant.B.sep "job-1" = "job" ∧
      holdsAny ["user"] (Variant.B.requiredRoles "job") = false ∧
      result (syncB refOps ["user"] [("_id", .str "job-1"),
        ("deleted", .obj [("toString", .str "x")]), ("channels", .num (.int 42))] .undefined)
        = .error .typeError ∧
      calls (syncB refOps ["user"] [("_id", .str "job-1"),
        ("deleted", .obj [("toString", .str "x")]), ("channels", .num (.int 42))] .undefined)
        = [] ∧
      result (syncA refOps ["user"] [("_id", .str "job:1"),
        ("deleted", .obj [("toString", .str "x")]), ("channels", .num (.int 42))] .undefined)
        = .error .missingRole ∧
      calls (syncA refOps ["user"] [("_id", .str "job:1"),
        ("deleted", .obj [("toString", .str "x")]), ("channels", .num (.int 42))] .undefined)
        = [.requireRole ["editor", "admin"]] :=
  ⟨(by simp [NotDeleted, getProp]), by decide, by decide, rfl, rfl, rfl, rfl⟩

/-- C4, at the failing input: the document `{_id:"widget-1", deleted:1}`,
whose `deleted` field is not the boolean true and whose first segment
`widget` is neither order nor job, written in variant B: for a caller holding
admin the call permits, and for a caller holding no role it rejects with the
role error, in both cases after a call to `requireRole`, instead of rejecting
with `error: invalid docType` without any call.  Variant A on the same
document with its delimiter rejects with `error: no docType` and makes no
call. -/
theorem syncB_loose_deleted_skips_doc_type_rejection :
    NotDeleted ([("_id", .str "widget-1"), ("deleted", .num (.int 1))] : Doc IntNum) ∧
      firstSegment Variant.B.sep "widget-1" = "widget" ∧
      result (syncB refOps ["admin"] [("_id", .str "widget-1"), ("deleted", .num (.int 1))]
        .undefined) = .ok () ∧
      result (syncB refOps [] [("_id", .str "widget-1"), ("deleted", .num (.int 1))]
        .undefined) = .error .missingRole ∧
      calls (syncB refOps [] [("_id", .str "widget-1"), ("deleted", .num (.int 1))]
        .undefined) = [.requireRole ["editor", "admin"]] ∧
      result (syncA refOps [] [("_id", .str "widget:1"), ("deleted", .num (.int 1))]
        .undefined) = .error (.forbidden "error: no docType") ∧
      calls (syncA refOps [] [("_id", .str "widget:1"), ("deleted", .num (.int 1))]
        .undefined) = [] :=
  ⟨(by simp [NotDeleted, getProp]), by decide, rfl, rfl, rfl, rfl, rfl⟩

/-- C5, at the failing input: the order document
`{_id:"order-1", deleted:1, channels:"public"}`, whose `deleted` field is not
the boolean true and whose `channels` value is valid, written in variant B by
a caller holding user, a role of the order branch: the call rejects with the
role error, because the deletion branch requires editor or admin.  Variant A
on the same document with its delimiter permits. -/
theorem syncB_loose_deleted_rejects_order_user :
    NotDeleted ([("_id", .str "order-1"), ("deleted", .num (.int 1)),
        ("channels", .str "public")] : Doc IntNum) ∧
      firstSegment Variant.B.sep "order-1" = "order" ∧
      ValidChannels (.str "public" : JSVal IntNum) ∧
      holdsAny ["user"] (Variant.B.requiredRoles "order") = true ∧
      result (syncB refOps ["user"] [("_id", .str "order-1"), ("deleted", .num (.int 1)),
        ("channels", .str "public")] .undefined) = .error .missingRole ∧
      result (syncA refOps ["user"] [("_id", .str "order:1"), ("deleted", .num (.int 1)),
        ("channels", .str "public")] .undefined) = .ok () :=
  ⟨(by simp [NotDeleted, getProp]), by decide, (fieldOk_iff _).1 rfl, by decide, rfl, rfl⟩

/-- C11, at the failing input: the order document
`{_id:"order", deleted:1, channels:"public"}`, whose `deleted` field is not
the boolean true, written in variant B by a caller holding admin: the call
permits and nothing is passed to `channel`, the only call being
`requireRole(["editor","admin"])`.  Variant A on the same document permits and
passes `"public"` to `channel`. -/
theorem syncB_loose_deleted_declares_no_channel :
    NotDeleted ([("_id", .str "order"), ("deleted", .num (.int 1)),
        ("channels", .str "public")] : Doc IntNum) ∧
      firstSegment Variant.B.sep "order" = "order" ∧
      result (syncB refOps ["admin"] [("_id", .str "order"), ("deleted", .num (.int 1)),
        ("channels", .str "public")] .undefined) = .ok () ∧
      calls (syncB refOps ["admin"] [("_id", .str "order"), ("deleted", .num (.int 1)),
        ("channels", .str "public")] .undefined) = [.requireRole ["editor", "admin"]] ∧
      result (syncA refOps ["admin"] [("_id", .str "order"), ("deleted", .num (.int 1)),
        ("channels", .str "public")] .undefined) = .ok () ∧
      calls (syncA refOps ["admin"] [("_id", .str "order"), ("deleted", .num (.int 1)),
        ("channels", .str "public")] .undefined)
        = [.requireRole ["editor", "admin", "user"], .fieldCheck (.str "public"),
            .channel (.str "public")] :=
  ⟨(by simp [NotDeleted, getProp]), by decide, rfl, rfl, rfl, rfl⟩

/-- C16, at the failing input: `fieldCheck(false)` returns true, and yet the
order document `{_id:"order-1", deleted:1, channels:false}`, whose `deleted`
field is not the boolean true, written in variant B, is rejected with the
role error for a caller holding user, a role of the order branch, and is
permitted with nothing passed to `channel` for a caller holding admin.
Variant A on the same document with its delimiter permits the caller holding
user and passes the boolean false to `channel`. -/
theorem syncB_loose_deleted_drops_non_string_channels :
    (fieldCheck refOps (.bool false) []).1 = .ok true ∧
      NotDeleted ([("_id", .str "order-1"), ("deleted", .num (.int 1)),
        ("channels", .bool false)] : Doc IntNum) ∧
      holdsAny ["user"] (Variant.B.requiredRoles "order") = true ∧
      result (syncB refOps ["user"] [("_id", .str "order-1"), ("deleted", .num (.int 1)),
        ("channels", .bool false)] .undefined) = .error .missingRole ∧
      result (syncB refOps ["admin"] [("_id", .str "order-1"), ("deleted", .num (.int 1)),
        ("channels", .bool false)] .undefined) = .ok () ∧
      declaredChannels (calls (syncB refOps ["admin"] [("_id", .str "order-1"),
        ("deleted", .num (.int 1)), ("channels", .bool false)] .undefined)) = [] ∧
      result (syncA refOps ["user"] [("_id", .str "order:1"), ("deleted", .num (.int 1)),
        ("channels", .bool false)] .undefined) = .ok () ∧
      declaredChannels (calls (syncA refOps ["user"] [("_id", .str "order:1"),
        ("deleted", .num (.int 1)), ("channels", .bool false)] .undefined))
        = [.bool false] :=
  ⟨rfl, (by simp [NotDeleted, getProp]), by decide, rfl, rfl, rfl, rfl, rfl⟩

end SyncFn
